import Mathlib

/-
Shallow embedding of src/sample/RustToken.rs.

The Rust `Token` struct stores `u64` fields and a `HashMap<String, u64>` of
balances.  We model `u64` values as `Nat` together with explicit wrapping
(`% 2 ^ 64`) at exactly the spots where the Rust code performs unchecked
arithmetic (release-mode wrapping semantics), and the hash map as an
association list with first-match lookup.  A method taking `&mut self` and
returning `Result<(), &'static str>` becomes a function
`Token → ... → Except String Unit × Token`: the second component is the state
after the call (unchanged on the error paths, exactly as in the source).
-/

namespace RustToken

/-- The modulus of the Rust `u64` type. -/
def M64 : Nat := 2 ^ 64

/-- Wrapping `u64` addition (faithful for operands below `M64`). -/
def wadd (x y : Nat) : Nat := (x + y) % M64

/-- Wrapping `u64` subtraction (faithful for operands below `M64`). -/
def wsub (x y : Nat) : Nat := (x + M64 - y) % M64

/-- The `HashMap<String, u64>` of balances, as an association list. -/
abbrev Balances := List (String × Nat)

/-- Models `self.balances.get(k).unwrap_or(&0)`: the stored value, or 0 when
the key is absent. -/
def getOr0 : Balances → String → Nat
  | [], _ => 0
  | (k, v) :: rest, a => if k = a then v else getOr0 rest a

/-- Models `*self.balances.entry(k).or_insert(0) = v` (insert-or-update):
the combined effect of the Rust `entry(k).or_insert(0)` access followed by
storing value `v` at key `k`. -/
def setVal : Balances → String → Nat → Balances
  | [], k, v => [(k, v)]
  | (k', v') :: rest, k, v =>
      if k' = k then (k, v) :: rest else (k', v') :: setVal rest k v

/-- Sum of all values stored in the balances map. -/
def sumVals : Balances → Nat
  | [] => 0
  | (_, v) :: rest => v + sumVals rest

/-- The `Token` struct of RustToken.rs. -/
structure Token where
  name : String
  symbol : String
  total_supply : Nat
  balances : Balances
  owner : String
deriving DecidableEq

/-- `Token::new`: seeds `balances[owner] = initial_supply` and
`total_supply = initial_supply`. -/
def Token.new (name symbol : String) (initial_supply : Nat) (owner : String) :
    Token :=
  { name := name
    symbol := symbol
    total_supply := initial_supply
    balances := [(owner, initial_supply)]
    owner := owner }

/-- `Token::transfer`: guard `sender_balance < amount`, then
`entry(sender) -= amount` (the guard rules out underflow, so plain `Nat`
subtraction is exact) and `entry(recipient) += amount` (unchecked `u64`
addition, hence `wadd`). -/
def Token.transfer (t : Token) (sender recipient : String) (amount : Nat) :
    Except String Unit × Token :=
  let sender_balance := getOr0 t.balances sender
  if sender_balance < amount then
    (Except.error "Insufficient balance", t)
  else
    let b1 := setVal t.balances sender (sender_balance - amount)
    let b2 := setVal b1 recipient (wadd (getOr0 b1 recipient) amount)
    (Except.ok (), { t with balances := b2 })

/-- `Token::mint`: owner gate, then unchecked `+=` on the recipient balance
and on `total_supply` (both `wadd`). -/
def Token.mint (t : Token) (to_ : String) (amount : Nat) (caller : String) :
    Except String Unit × Token :=
  if caller ≠ t.owner then
    (Except.error "Only owner can mint tokens", t)
  else
    (Except.ok (),
      { t with
          balances := setVal t.balances to_ (wadd (getOr0 t.balances to_) amount)
          total_supply := wadd t.total_supply amount })

/-- `Token::burn`: guard `from_balance < amount`, then `entry(from) -= amount`
(exact by the guard) and unchecked `total_supply -= amount` (`wsub`). -/
def Token.burn (t : Token) (from_ : String) (amount : Nat) :
    Except String Unit × Token :=
  let from_balance := getOr0 t.balances from_
  if from_balance < amount then
    (Except.error "Insufficient balance", t)
  else
    (Except.ok (),
      { t with
          balances := setVal t.balances from_ (from_balance - amount)
          total_supply := wsub t.total_supply amount })

/-- `Token::balance_of`: pure read, 0 for unknown accounts. -/
def Token.balance_of (t : Token) (account : String) : Nat :=
  getOr0 t.balances account

/-- `Token::transfer_ownership`: owner gate, then `owner = new_owner`. -/
def Token.transfer_ownership (t : Token) (new_owner : String) (caller : String) :
    Except String Unit × Token :=
  if caller ≠ t.owner then
    (Except.error "Only owner can transfer ownership", t)
  else
    (Except.ok (), { t with owner := new_owner })

/-- The conservation invariant of the spec: `total_supply` equals the sum of
all balances. -/
def inv (t : Token) : Prop := t.total_supply = sumVals t.balances

/-- Lookup after insert-or-update. -/
theorem getOr0_setVal (m : Balances) (k k' : String) (v : Nat) :
    getOr0 (setVal m k v) k' = if k = k' then v else getOr0 m k' := by
  induction m with
  | nil => simp [setVal, getOr0]
  | cons hd tl ih =>
      obtain ⟨k₀, v₀⟩ := hd
      by_cases h₀ : k₀ = k
      · subst h₀
        by_cases h₁ : k₀ = k'
        · simp [setVal, getOr0, h₁]
        · simp [setVal, getOr0, h₁]
      · by_cases h₁ : k₀ = k'
        · subst h₁
          have hne : ¬k = k₀ := fun h => h₀ h.symm
          simp [setVal, getOr0, h₀, hne]
        · simp [setVal, getOr0, h₀, h₁, ih]

/-- Sum of values after insert-or-update: the old value at `k` is replaced by
`v`, so the two sums differ exactly by that exchange. -/
theorem sumVals_setVal (m : Balances) (k : String) (v : Nat) :
    sumVals (setVal m k v) + getOr0 m k = sumVals m + v := by
  induction m with
  | nil => simp [setVal, getOr0, sumVals]
  | cons hd tl ih =>
      obtain ⟨k₀, v₀⟩ := hd
      by_cases h₀ : k₀ = k
      · subst h₀
        simp [setVal, getOr0, sumVals]
        omega
      · simp [setVal, getOr0, sumVals, h₀]
        omega

/-- Every single balance is at most the sum of all balances. -/
theorem getOr0_le_sumVals (m : Balances) (k : String) :
    getOr0 m k ≤ sumVals m := by
  induction m with
  | nil => simp [getOr0, sumVals]
  | cons hd tl ih =>
      obtain ⟨k₀, v₀⟩ := hd
      by_cases h₀ : k₀ = k
      · subst h₀; simp [getOr0, sumVals]
      · simp [getOr0, sumVals, h₀]
        omega

/-- Wrapping addition is exact addition when the true sum fits in a `u64`. -/
theorem wadd_eq (x y : Nat) (h : x + y < M64) : wadd x y = x + y :=
  Nat.mod_eq_of_lt h

/-- Wrapping subtraction is exact subtraction when no underflow occurs. -/
theorem wsub_eq (x y : Nat) (hy : y ≤ x) (hx : x < M64) : wsub x y = x - y := by
  unfold wsub M64 at *
  omega

/-- Wrapping subtraction undoes wrapping addition of the same `u64` operand. -/
theorem wsub_wadd (x y : Nat) (hx : x < M64) (hy : y < M64) :
    wsub (wadd x y) y = x := by
  unfold wadd wsub M64 at *
  omega

/-- Reference version of `transfer` following the spec sentence "no operation
may cause an account balance or `total_supply` to wrap or go negative": the
same control flow as `Token.transfer` but with exact (unbounded) addition, to
be compared with the source-derived definition. -/
def transferSpec (t : Token) (sender recipient : String) (amount : Nat) :
    Except String Unit × Token :=
  if getOr0 t.balances sender < amount then
    (Except.error "Insufficient balance", t)
  else
    let b1 := setVal t.balances sender (getOr0 t.balances sender - amount)
    (Except.ok (),
      { t with balances := setVal b1 recipient (getOr0 b1 recipient + amount) })

/-- Reference version of `mint` with exact (unbounded) addition, following the
same spec sentence; to be compared with the source-derived definition. -/
def mintSpec (t : Token) (to_ : String) (amount : Nat) (caller : String) :
    Except String Unit × Token :=
  if caller ≠ t.owner then
    (Except.error "Only owner can mint tokens", t)
  else
    (Except.ok (),
      { t with
          balances := setVal t.balances to_ (getOr0 t.balances to_ + amount)
          total_supply := t.total_supply + amount })

/-- Reference version of `burn` with exact subtraction, following the same
spec sentence; to be compared with the source-derived definition. -/
def burnSpec (t : Token) (from_ : String) (amount : Nat) :
    Except String Unit × Token :=
  if getOr0 t.balances from_ < amount then
    (Except.error "Insufficient balance", t)
  else
    (Except.ok (),
      { t with
          balances := setVal t.balances from_ (getOr0 t.balances from_ - amount)
          total_supply := t.total_supply - amount })

/-- A valid `u64` ledger state in which the conservation invariant holds and
`total_supply` sits at the top of the `u64` range; reachable in spirit from
`new` followed by one `transfer`. -/
def c1State : Token :=
  { name := "T"
    symbol := "S"
    total_supply := M64 - 1
    balances := [("o", M64 - 2), ("u", 1)]
    owner := "o" }

/-- C1 counterexample: from a state satisfying the conservation invariant, a
successful `mint` whose unchecked `total_supply += amount` wraps modulo
`2 ^ 64` leaves `total_supply` different from the sum of all balances, so the
claim "after any call to transfer, mint, or burn the invariant holds again" is
false as stated. -/
theorem C1_cex :
    c1State.total_supply = sumVals c1State.balances ∧
    (c1State.mint "u" 2 "o").1 = Except.ok () ∧
    (c1State.mint "u" 2 "o").2.total_supply ≠
      sumVals (c1State.mint "u" 2 "o").2.balances :=
  ⟨by decide, rfl, by decide⟩

/-- C1 (amended): if `total_supply` equals the sum of all balances and is a
valid `u64` value, then `transfer` and `burn` (whether they succeed or fail)
preserve that equality, `mint` preserves it provided its supply addition does
not overflow (`total_supply + amount < 2 ^ 64`), and `new` establishes it. -/
theorem C1_conservation (t : Token)
    (sender recipient from_ to_ caller nm sym ow : String) (amount init : Nat)
    (hinv : inv t) (hM : t.total_supply < M64) :
    inv (t.transfer sender recipient amount).2 ∧
    inv (t.burn from_ amount).2 ∧
    (t.total_supply + amount < M64 → inv (t.mint to_ amount caller).2) ∧
    inv (Token.new nm sym init ow) := by
  unfold inv at *
  refine ⟨?_, ?_, ?_, ?_⟩
  · unfold Token.transfer
    by_cases h : getOr0 t.balances sender < amount
    · simpa [h] using hinv
    · simp [h]
      have hgs := getOr0_le_sumVals t.balances sender
      have h1 := sumVals_setVal t.balances sender (getOr0 t.balances sender - amount)
      have hr := getOr0_le_sumVals
        (setVal t.balances sender (getOr0 t.balances sender - amount)) recipient
      rw [wadd_eq (getOr0 (setVal t.balances sender
        (getOr0 t.balances sender - amount)) recipient) amount (by omega)]
      have h3 := sumVals_setVal
        (setVal t.balances sender (getOr0 t.balances sender - amount)) recipient
        (getOr0 (setVal t.balances sender (getOr0 t.balances sender - amount))
          recipient + amount)
      omega
  · unfold Token.burn
    by_cases h : getOr0 t.balances from_ < amount
    · simpa [h] using hinv
    · simp [h]
      have hgs := getOr0_le_sumVals t.balances from_
      have h1 := sumVals_setVal t.balances from_ (getOr0 t.balances from_ - amount)
      rw [wsub_eq _ _ (by omega) hM]
      omega
  · intro hov
    unfold Token.mint
    by_cases h : caller = t.owner
    · simp [h]
      have hgs := getOr0_le_sumVals t.balances to_
      rw [wadd_eq (getOr0 t.balances to_) amount (by omega),
        wadd_eq t.total_supply amount hov]
      have h1 := sumVals_setVal t.balances to_ (getOr0 t.balances to_ + amount)
      omega
    · simpa [h] using hinv
  · simp [Token.new, sumVals]

/-- Witness for C1 on a concrete ledger: a successful transfer from the
constructor state keeps the conservation invariant. -/
theorem C1_conservation_witness :
    inv ((Token.new "Tok" "TK" 100 "o").transfer "o" "b" 30).2 :=
  (C1_conservation (Token.new "Tok" "TK" 100 "o") "o" "b" "f" "x" "c" "N" "Y"
    "w" 30 0 (by simp [inv, Token.new, sumVals]) (by decide)).1

/-- The ledger produced by `new` with the maximal `u64` initial supply; every
field is a valid `u64` value and the conservation invariant holds. -/
def c2State : Token := Token.new "T" "S" (M64 - 1) "o"

/-- C2 counterexample: from a constructor-reachable state, `mint` by the owner
succeeds but its unchecked additions wrap `total_supply` and the recipient
balance around the `u64` range (both drop to 0 instead of increasing by the
amount), so the claim "no account balance and not total_supply wraps; in
particular mint never wraps" is false as stated.  (In a debug build the same
call aborts with an overflow panic instead of returning a typed result.) -/
theorem C2_cex :
    (c2State.mint "o" 1 "o").1 = Except.ok () ∧
    (c2State.mint "o" 1 "o").2.total_supply = 0 ∧
    (c2State.mint "o" 1 "o").2.total_supply ≠ c2State.total_supply + 1 ∧
    (c2State.mint "o" 1 "o").2.balance_of "o" ≠ c2State.balance_of "o" + 1 :=
  ⟨rfl, by decide, by decide, by decide⟩

/-- C2 (amended): on any valid ledger state satisfying the conservation
invariant, `transfer` and `burn` coincide with their exact-arithmetic
reference versions (so no balance or supply wraps or goes below zero on those
paths), the unchecked supply subtraction in `burn` never underflows when the
balance guard passes, and `mint` coincides with its exact-arithmetic reference
version provided `total_supply + amount < 2 ^ 64`; every operation returns a
typed result.  Without that proviso `mint` wraps (see the counterexample). -/
theorem C2_no_wrap (t : Token) (sender recipient to_ from_ caller : String)
    (amount : Nat) (hinv : inv t) (hM : t.total_supply < M64) :
    t.transfer sender recipient amount = transferSpec t sender recipient amount ∧
    t.burn from_ amount = burnSpec t from_ amount ∧
    (amount ≤ t.balance_of from_ → amount ≤ t.total_supply) ∧
    (t.total_supply + amount < M64 →
      t.mint to_ amount caller = mintSpec t to_ amount caller) := by
  unfold inv at hinv
  refine ⟨?_, ?_, ?_, ?_⟩
  · unfold Token.transfer transferSpec
    by_cases h : getOr0 t.balances sender < amount
    · simp [h]
    · simp [h]
      have hgs := getOr0_le_sumVals t.balances sender
      have h1 := sumVals_setVal t.balances sender (getOr0 t.balances sender - amount)
      have hr := getOr0_le_sumVals
        (setVal t.balances sender (getOr0 t.balances sender - amount)) recipient
      rw [wadd_eq _ _ (by omega)]
  · unfold Token.burn burnSpec
    by_cases h : getOr0 t.balances from_ < amount
    · simp [h]
    · simp [h]
      have hgs := getOr0_le_sumVals t.balances from_
      rw [wsub_eq _ _ (by omega) hM]
  · intro hle
    unfold Token.balance_of at hle
    have hgs := getOr0_le_sumVals t.balances from_
    omega
  · intro hov
    unfold Token.mint mintSpec
    by_cases h : caller = t.owner
    · simp [h]
      have hgs := getOr0_le_sumVals t.balances to_
      rw [wadd_eq (getOr0 t.balances to_) amount (by omega),
        wadd_eq t.total_supply amount hov]
      exact ⟨rfl, rfl⟩
    · simp [h]

/-- Witness for C2 on a concrete ledger: `transfer` agrees with the
exact-arithmetic reference transfer. -/
theorem C2_no_wrap_witness :
    (Token.new "Tok" "TK" 50 "o").transfer "o" "b" 20 =
      transferSpec (Token.new "Tok" "TK" 50 "o") "o" "b" 20 :=
  (C2_no_wrap (Token.new "Tok" "TK" 50 "o") "o" "b" "x" "f" "c" 20
    (by simp [inv, Token.new, sumVals]) (by decide)).1

/-- C3: `transfer` and `burn` return the insufficient-balance error exactly
when the source account balance is strictly below the requested amount, and
whenever they return any error the ledger state is completely unchanged. -/
theorem C3_insufficient_balance (t : Token) (sender recipient from_ : String)
    (amount : Nat) :
    ((t.transfer sender recipient amount).1 = Except.error "Insufficient balance" ↔
      t.balance_of sender < amount) ∧
    (∀ e, (t.transfer sender recipient amount).1 = Except.error e →
      (t.transfer sender recipient amount).2 = t) ∧
    ((t.burn from_ amount).1 = Except.error "Insufficient balance" ↔
      t.balance_of from_ < amount) ∧
    (∀ e, (t.burn from_ amount).1 = Except.error e → (t.burn from_ amount).2 = t) := by
  unfold Token.transfer Token.burn Token.balance_of
  by_cases h1 : getOr0 t.balances sender < amount <;>
    by_cases h2 : getOr0 t.balances from_ < amount <;>
    simp [h1, h2]

/-- Witness for C3 on a concrete ledger: an overdrawn transfer leaves the
state unchanged. -/
theorem C3_insufficient_balance_witness :
    ((Token.new "Tok" "TK" 10 "o").transfer "o" "b" 99).2 =
      Token.new "Tok" "TK" 10 "o" :=
  (C3_insufficient_balance (Token.new "Tok" "TK" 10 "o") "o" "b" "f" 99).2.1
    "Insufficient balance"
    ((C3_insufficient_balance (Token.new "Tok" "TK" 10 "o") "o" "b" "f" 99).1.mpr
      (by decide))

/-- C4: `mint` and `transfer_ownership` called by a non-owner always fail with
the unauthorized error and leave the whole state (hence `total_supply`,
`balances`, and `owner`) unchanged; called by the owner they always succeed. -/
theorem C4_authorization_gate (t : Token) (to_ new_owner caller : String)
    (amount : Nat) :
    (caller ≠ t.owner →
      (t.mint to_ amount caller).1 = Except.error "Only owner can mint tokens" ∧
      (t.mint to_ amount caller).2 = t ∧
      (t.transfer_ownership new_owner caller).1 =
        Except.error "Only owner can transfer ownership" ∧
      (t.transfer_ownership new_owner caller).2 = t) ∧
    (caller = t.owner →
      (t.mint to_ amount caller).1 = Except.ok () ∧
      (t.transfer_ownership new_owner caller).1 = Except.ok ()) := by
  unfold Token.mint Token.transfer_ownership
  by_cases h : caller = t.owner <;> simp [h]

/-- Witness for C4 on a concrete ledger: a non-owner mint leaves the state
unchanged. -/
theorem C4_authorization_gate_witness :
    ((Token.new "Tok" "TK" 7 "o").mint "x" 3 "evil").2 = Token.new "Tok" "TK" 7 "o" :=
  ((C4_authorization_gate (Token.new "Tok" "TK" 7 "o") "x" "n" "evil" 3).1
    (by decide)).2.1

/-- C5 counterexample: `new` performs no validation of the owner identity, so
construction can yield an empty owner, and `transfer_ownership` accepts an
empty `new_owner`, so an operation can turn a non-empty owner into an empty
one; the claim "owner is always non-empty and preserved by every operation" is
false as stated. -/
theorem C5_cex :
    (Token.new "T" "S" 0 "").owner = "" ∧
    (Token.new "T" "S" 5 "o").owner ≠ "" ∧
    ((Token.new "T" "S" 5 "o").transfer_ownership "" "o").1 = Except.ok () ∧
    ((Token.new "T" "S" 5 "o").transfer_ownership "" "o").2.owner = "" :=
  ⟨rfl, by decide, rfl, rfl⟩

/-- C5 (amended): `new` sets `owner` to exactly the supplied owner argument
(no validation), `transfer`, `mint`, and `burn` never change `owner`, and
`transfer_ownership` preserves `owner` for a non-owner caller and sets it to
exactly `new_owner` for the owner; hence `owner` remains non-empty only as
long as the constructor argument and every accepted `new_owner` are
non-empty. -/
theorem C5_owner_tracking (t : Token)
    (nm sym ow sender recipient from_ to_ caller new_owner : String)
    (amount init : Nat) :
    (Token.new nm sym init ow).owner = ow ∧
    (t.transfer sender recipient amount).2.owner = t.owner ∧
    (t.mint to_ amount caller).2.owner = t.owner ∧
    (t.burn from_ amount).2.owner = t.owner ∧
    (caller ≠ t.owner → (t.transfer_ownership new_owner caller).2.owner = t.owner) ∧
    (caller = t.owner → (t.transfer_ownership new_owner caller).2.owner = new_owner) ∧
    (caller = t.owner → new_owner ≠ "" →
      (t.transfer_ownership new_owner caller).2.owner ≠ "") := by
  unfold Token.new Token.transfer Token.mint Token.burn Token.transfer_ownership
  refine ⟨rfl, ?_, ?_, ?_, ?_, ?_, ?_⟩
  · by_cases h : getOr0 t.balances sender < amount <;> simp [h]
  · by_cases h : caller = t.owner <;> simp [h]
  · by_cases h : getOr0 t.balances from_ < amount <;> simp [h]
  · intro h; simp [h]
  · intro h; simp [h]
  · intro h hne; simp [h, hne]

/-- Witness for C5 on a concrete ledger: an owner-approved ownership transfer
sets the owner to exactly the new identity. -/
theorem C5_owner_tracking_witness :
    ((Token.new "Tok" "TK" 9 "o").transfer_ownership "p" "o").2.owner = "p" :=
  (C5_owner_tracking (Token.new "Tok" "TK" 9 "o") "N" "S" "w" "s" "r" "f" "t"
    "o" "p" 1 2).2.2.2.2.2.1 (by decide)

/-- C6: a self-transfer with sufficient balance succeeds and leaves the
account balance exactly as it was (the decrement is undone by the increment),
for any account whose balance is a valid `u64` value. -/
theorem C6_self_transfer (t : Token) (a : String) (amount : Nat)
    (h : amount ≤ t.balance_of a) (hb : t.balance_of a < M64) :
    (t.transfer a a amount).1 = Except.ok () ∧
    (t.transfer a a amount).2.balance_of a = t.balance_of a := by
  unfold Token.balance_of at h hb
  have hguard : ¬getOr0 t.balances a < amount := by omega
  unfold Token.transfer Token.balance_of
  simp [hguard, getOr0_setVal, wadd]
  rw [Nat.sub_add_cancel h, Nat.mod_eq_of_lt hb]

/-- Witness for C6 on a concrete ledger: a self-transfer of 15 out of 40
leaves the balance at 40. -/
theorem C6_self_transfer_witness :
    ((Token.new "Tok" "TK" 40 "o").transfer "o" "o" 15).2.balance_of "o" =
      (Token.new "Tok" "TK" 40 "o").balance_of "o" :=
  (C6_self_transfer (Token.new "Tok" "TK" 40 "o") "o" 15 (by decide)
    (by decide)).2

/-- C7 counterexample: starting from a constructor-reachable state whose owner
balance is the maximal `u64` value, an owner `mint` of 1 succeeds (wrapping
the balance to 0), but the following `burn` of the same amount fails with the
insufficient-balance error instead of succeeding, so the round-trip claim is
false as stated for every ledger state. -/
theorem C7_cex :
    ((Token.new "T" "S" (M64 - 1) "o").mint "o" 1 "o").1 = Except.ok () ∧
    (((Token.new "T" "S" (M64 - 1) "o").mint "o" 1 "o").2.burn "o" 1).1 =
      Except.error "Insufficient balance" :=
  ⟨rfl, rfl⟩

/-- C7 (amended): for any valid `u64` state and amount, if the minted account
balance does not overflow (`balance_of to + amount < 2 ^ 64`), then `mint`
by the owner followed by `burn` of the same amount both succeed and restore
`total_supply` and the balance of the minted account to their values before
the mint (the supply round-trips even modulo `2 ^ 64`). -/
theorem C7_mint_burn_roundtrip (t : Token) (to_ caller : String) (amount : Nat)
    (hc : caller = t.owner) (hb : t.balance_of to_ + amount < M64)
    (ht : t.total_supply < M64) (ha : amount < M64) :
    (t.mint to_ amount caller).1 = Except.ok () ∧
    ((t.mint to_ amount caller).2.burn to_ amount).1 = Except.ok () ∧
    ((t.mint to_ amount caller).2.burn to_ amount).2.total_supply =
      t.total_supply ∧
    ((t.mint to_ amount caller).2.burn to_ amount).2.balance_of to_ =
      t.balance_of to_ := by
  unfold Token.balance_of at *
  unfold Token.mint Token.burn
  simp [hc]
  rw [wadd_eq (getOr0 t.balances to_) amount hb]
  have hg : getOr0 (setVal t.balances to_ (getOr0 t.balances to_ + amount)) to_ =
      getOr0 t.balances to_ + amount := by
    rw [getOr0_setVal]; simp
  rw [hg]
  have hguard : ¬getOr0 t.balances to_ + amount < amount := by omega
  simp [hguard, getOr0_setVal]
  exact wsub_wadd t.total_supply amount ht ha

/-- Witness for C7 on a concrete ledger: minting 5 to a fresh account and then
burning 5 restores the original total supply. -/
theorem C7_mint_burn_roundtrip_witness :
    (((Token.new "Tok" "TK" 60 "o").mint "u" 5 "o").2.burn "u" 5).2.total_supply =
      (Token.new "Tok" "TK" 60 "o").total_supply :=
  (C7_mint_burn_roundtrip (Token.new "Tok" "TK" 60 "o") "u" "o" 5 (by decide)
    (by decide) (by decide) (by decide)).2.2.1

/-- The ledger constructed in the documented scenario. -/
def scenario0 : Token := Token.new "Example Token" "EXT" 1000000 "owner"

/-- C8: in the documented scenario, the transfer of 1000 to user1 and the
owner mint of 500 to user2 both succeed, after which the owner holds 999000,
user1 holds 1000, user2 holds 500, and the total supply is 1000500. -/
theorem C8_scenario :
    (scenario0.transfer "owner" "user1" 1000).1 = Except.ok () ∧
    ((scenario0.transfer "owner" "user1" 1000).2.mint "user2" 500 "owner").1 =
      Except.ok () ∧
    ((scenario0.transfer "owner" "user1" 1000).2.mint "user2" 500
      "owner").2.balance_of "owner" = 999000 ∧
    ((scenario0.transfer "owner" "user1" 1000).2.mint "user2" 500
      "owner").2.balance_of "user1" = 1000 ∧
    ((scenario0.transfer "owner" "user1" 1000).2.mint "user2" 500
      "owner").2.balance_of "user2" = 500 ∧
    ((scenario0.transfer "owner" "user1" 1000).2.mint "user2" 500
      "owner").2.total_supply = 1000500 :=
  ⟨rfl, rfl, by decide, by decide, by decide, by decide⟩

/-- C9: on any valid `u64` state satisfying the conservation invariant, when
the balance guard of `burn` passes the burn amount is bounded by
`total_supply` (the invariant forces `total_supply >= balance_of from`), so
the unchecked `total_supply -= amount` cannot underflow and computes the exact
difference; when the guard fails, the error branch leaves the state untouched
and the subtraction is skipped. -/
theorem C9_burn_no_underflow (t : Token) (from_ : String) (amount : Nat)
    (hinv : inv t) (hM : t.total_supply < M64) :
    (¬t.balance_of from_ < amount →
      amount ≤ t.total_supply ∧
      (t.burn from_ amount).1 = Except.ok () ∧
      (t.burn from_ amount).2.total_supply = t.total_supply - amount) ∧
    (t.balance_of from_ < amount →
      (t.burn from_ amount).1 = Except.error "Insufficient balance" ∧
      (t.burn from_ amount).2 = t) := by
  unfold inv at hinv
  unfold Token.balance_of Token.burn
  have hgs := getOr0_le_sumVals t.balances from_
  by_cases h : getOr0 t.balances from_ < amount
  · simp [h]
  · simp [h]
    constructor
    · omega
    · rw [wsub_eq _ _ (by omega) hM]

/-- Witness for C9 on a concrete ledger: burning 10 out of 25 lowers the
supply to exactly 15. -/
theorem C9_burn_no_underflow_witness :
    ((Token.new "Tok" "TK" 25 "o").burn "o" 10).2.total_supply =
      (Token.new "Tok" "TK" 25 "o").total_supply - 10 :=
  ((C9_burn_no_underflow (Token.new "Tok" "TK" 25 "o") "o" 10
    (by simp [inv, Token.new, sumVals]) (by decide)).1 (by decide)).2.2

/-- C10: a zero-amount transfer between any two accounts - present in the
balances map or not - succeeds (a `u64` balance is never below zero, so the
guard cannot fire) and leaves the balance of every account unchanged, provided
the recipient balance is a valid `u64` value. -/
theorem C10_zero_transfer (t : Token) (sender recipient : String)
    (hb : t.balance_of recipient < M64) :
    (t.transfer sender recipient 0).1 = Except.ok () ∧
    ∀ a, (t.transfer sender recipient 0).2.balance_of a = t.balance_of a := by
  unfold Token.balance_of at *
  unfold Token.transfer
  have hguard : ¬getOr0 t.balances sender < 0 := by omega
  simp [hguard, getOr0_setVal, wadd]
  intro a
  by_cases hra : recipient = a <;> by_cases hsr : sender = recipient <;>
    by_cases hsa : sender = a <;>
    simp_all [Nat.mod_eq_of_lt]

/-- Witness for C10 on a concrete ledger: a zero transfer between two absent
accounts leaves the owner balance unchanged. -/
theorem C10_zero_transfer_witness :
    ((Token.new "Tok" "TK" 12 "o").transfer "a" "b" 0).2.balance_of "o" =
      (Token.new "Tok" "TK" 12 "o").balance_of "o" :=
  (C10_zero_transfer (Token.new "Tok" "TK" 12 "o") "a" "b" (by decide)).2 "o"

end RustToken
